import Mathlib

/-!
Shallow embedding of the chunked video-streaming clients of the
`aof_vid_stream` repository, together with proofs and refutations of the
frozen specification claims.

Two client modules are embedded:

* `WebRTC` — `src/static/js/webrtc-video.js`, class `WebRTCVideoClient`:
  chunked frame reassembly, per-frame timeouts, periodic sweep,
  reconnection policy, `connect`/`disconnect`, `startStream`/`stopStream`.
* `Ws` — `src/static/js/websocket-video.js` (the second
  `WebSocketVideoClient` class in that file, the one with bitrate
  tracking): outbound command methods, the `encoding_method_updated`
  handler, and `updateBitrate`.

Modelling conventions:

* JavaScript `Map` objects are embedded as association lists
  (`List (Nat × α)`) with `jsGet` / `jsHas` / `jsSet` / `jsDelete`
  mirroring `Map.get` / `Map.has` / `Map.set` / `Map.delete`
  (`jsSet` overwrites in place when the key is present, else appends —
  exactly the JS insertion-order semantics).
* Byte buffers (`Uint8Array`, chunk payloads) are `List Nat`.
  `Uint8Array.prototype.set` throws a `RangeError` when the source does
  not fit; this is modelled by `writeAt` returning `none`, and the thrown
  exception aborts the reassembly (`ReasmResult.rangeError`).
* `Date.now()` values are passed in explicitly as `Nat` millisecond
  arguments wherever the source calls `Date.now()`.
* `Math.random() < 0.1` (the sampled chunk acknowledgement) is passed in
  as an explicit `Bool` outcome.
* `setTimeout` handles are modelled as `Nat` identifiers; the pending
  per-frame timers are exactly the entries of the `chunkTimeouts` map,
  as in the source, and pending reconnect timers are kept in a queue.
* Messages emitted to the peer (`socket.emit`) are collected in a list of
  `RtcEmit` / `WsEmit` values.  Status strings (`updateStatus`,
  `drawMessage`, `console.log`) only write to a DOM element or the
  console; they are observability output, not client state or peer
  messages, and are not modelled.
* socket.io-client semantics: a client-initiated `socket.disconnect()`
  fires the registered `disconnect` handler (reason
  `io client disconnect`) when and only when the socket is currently
  connected; this documented library behaviour is reflected in
  `WebRTC.disconnect`.
* The `img.onload` continuation of a successfully reassembled frame
  (render, statistics update, `cleanupFrame`) is modelled as running with
  the reassembly, i.e. image decoding of a handed-off buffer is assumed
  to succeed; `rendered` records the buffers handed to the renderer.
-/

namespace WebRTC

/-- `Map.prototype.get`: value stored at `k`, if any. -/
def jsGet {α : Type} (m : List (Nat × α)) (k : Nat) : Option α :=
  (m.find? (fun p => p.1 == k)).map Prod.snd

/-- `Map.prototype.has`. -/
def jsHas {α : Type} (m : List (Nat × α)) (k : Nat) : Bool :=
  (m.find? (fun p => p.1 == k)).isSome

/-- `Map.prototype.set`: overwrite in place when present, else append. -/
def jsSet {α : Type} (m : List (Nat × α)) (k : Nat) (v : α) : List (Nat × α) :=
  match m with
  | [] => [(k, v)]
  | p :: rest => if p.1 == k then (k, v) :: rest else p :: jsSet rest k v

/-- `Map.prototype.delete`. -/
def jsDelete {α : Type} (m : List (Nat × α)) (k : Nat) : List (Nat × α) :=
  m.filter (fun p => !(p.1 == k))

/-- Metadata of a chunked frame (`webrtc_frame_chunked` payload); the
`frameTime` field is the `Date.now()` stamp the handler spreads into the
stored copy (`{ ...metadata, frameTime: Date.now() }`). -/
structure FrameMeta where
  frame_id : Nat
  total_chunks : Nat
  total_size : Nat
  timestamp : Nat
  quality : Nat
  frameTime : Nat
  deriving Repr, DecidableEq

/-- Metadata of a single chunk (`webrtc_chunk` payload). -/
structure ChunkMeta where
  frame_id : Nat
  chunk_index : Nat
  deriving Repr, DecidableEq

/-- One entry of `this.chunkCache`: the per-frame assembly object created
by the `webrtc_frame_chunked` handler. -/
structure FrameAssembly where
  metadata : FrameMeta
  chunks : List (Nat × List Nat)
  receivedChunks : Nat
  startTime : Nat
  deriving Repr, DecidableEq

/-- `this.performanceStats` (the counter fields; `averageLatency` is
declared in the source and never updated, `frameReassemblyTime` is set on
each reassembled frame). -/
structure PerfStats where
  totalFrames : Nat
  chunkedFrames : Nat
  chunksReceived : Nat
  chunksLost : Nat
  averageLatency : Nat
  frameReassemblyTime : Nat
  deriving Repr, DecidableEq

/-- `this.currentSettings` of the WebRTC client. -/
structure RtcSettings where
  camera_index : Nat
  resolution : Nat × Nat
  fps : Nat
  quality : Nat
  chunk_size : Nat
  enable_chunking : Bool
  deriving Repr, DecidableEq

/-- A partial settings object passed to `startStream(settings)`;
`{ ...this.currentSettings, ...settings }` is `applyPatch`. -/
structure RtcPatch where
  camera_index : Option Nat := none
  resolution : Option (Nat × Nat) := none
  fps : Option Nat := none
  quality : Option Nat := none
  chunk_size : Option Nat := none
  enable_chunking : Option Bool := none
  deriving Repr, DecidableEq

/-- JS object spread `{ ...base, ...patch }` over the settings fields. -/
def applyPatch (p : RtcPatch) (base : RtcSettings) : RtcSettings where
  camera_index := p.camera_index.getD base.camera_index
  resolution := p.resolution.getD base.resolution
  fps := p.fps.getD base.fps
  quality := p.quality.getD base.quality
  chunk_size := p.chunk_size.getD base.chunk_size
  enable_chunking := p.enable_chunking.getD base.enable_chunking

/-- Messages the WebRTC client emits to the peer. -/
inductive RtcEmit where
  | chunkReceived (frame_id chunk_index : Nat)
  | startWebrtcStream (settings : RtcSettings)
  | stopWebrtcStream
  deriving Repr, DecidableEq

/-- The mutable fields of `WebRTCVideoClient` relevant to the transport
protocol, plus the observable render log and the queue of scheduled
reconnect timers. -/
structure RtcState where
  socketExists : Bool
  isConnected : Bool
  isStreaming : Bool
  reconnectAttempts : Nat
  frameCount : Nat
  lastFrameTime : Nat
  latencyDisplay : Int
  currentSettings : RtcSettings
  chunkCache : List (Nat × FrameAssembly)
  chunkTimeouts : List (Nat × Nat)
  nextTimerId : Nat
  pendingReconnects : List Nat
  stats : PerfStats
  rendered : List (Nat × List Nat)
  deriving Repr, DecidableEq

/-- `this.maxReconnectAttempts = 5`. -/
def maxReconnectAttempts : Nat := 5

/-- `this.reconnectDelay = 1000`. -/
def reconnectDelay : Nat := 1000

/-- `this.maxChunkWaitTime = 1000`. -/
def maxChunkWaitTime : Nat := 1000

/-- Constructor defaults of `WebRTCVideoClient` (settings). -/
def initialSettings : RtcSettings where
  camera_index := 1
  resolution := (1920, 1080)
  fps := 60
  quality := 85
  chunk_size := 32768
  enable_chunking := true

/-- Constructor defaults of `WebRTCVideoClient` (client state). -/
def initialState : RtcState where
  socketExists := false
  isConnected := false
  isStreaming := false
  reconnectAttempts := 0
  frameCount := 0
  lastFrameTime := 0
  latencyDisplay := 0
  currentSettings := initialSettings
  chunkCache := []
  chunkTimeouts := []
  nextTimerId := 0
  pendingReconnects := []
  stats := ⟨0, 0, 0, 0, 0, 0⟩
  rendered := []

/-- `cleanupFrame(frameId)`: clear the pending timeout (if any) and delete
the cache entry. -/
def cleanupFrame (frameId : Nat) (s : RtcState) : RtcState :=
  { s with
    chunkTimeouts := jsDelete s.chunkTimeouts frameId
    chunkCache := jsDelete s.chunkCache frameId }

/-- `handleFrameTimeout(frameId)`: warn and clean up the frame. -/
def handleFrameTimeout (frameId : Nat) (s : RtcState) : RtcState :=
  cleanupFrame frameId s

/-- `cleanupOldFrames()`: delete every cache entry older than 5000 ms. -/
def cleanupOldFrames (now : Nat) (s : RtcState) : RtcState :=
  let old := (s.chunkCache.filter (fun p => decide (5000 < now - p.2.startTime))).map Prod.fst
  old.foldl (fun st fid => cleanupFrame fid st) s

/-- `webrtc_frame_chunked` handler: create the assembly entry and schedule
the completion timeout. -/
def onFrameChunked (now : Nat) (meta : FrameMeta) (s : RtcState) : RtcState :=
  { s with
    chunkCache := jsSet s.chunkCache meta.frame_id
      { metadata := { meta with frameTime := now }
        chunks := []
        receivedChunks := 0
        startTime := now }
    chunkTimeouts := jsSet s.chunkTimeouts meta.frame_id s.nextTimerId
    nextTimerId := s.nextTimerId + 1 }

/-- Outcome of the reassembly loop of `reassembleAndRenderFrame`. -/
inductive ReasmResult where
  | missing (i : Nat)
  | rangeError
  | ok (buf : List Nat)
  deriving Repr, DecidableEq

/-- `Uint8Array.prototype.set(data, off)` on a buffer: in-place overwrite
when the source fits, `RangeError` (here `none`) otherwise. -/
def writeAt (buf : List Nat) (off : Nat) (data : List Nat) : Option (List Nat) :=
  if off + data.length ≤ buf.length then
    some (buf.take off ++ data ++ buf.drop (off + data.length))
  else
    none

/-- The `for (let i = 0; i < metadata.total_chunks; i++)` loop of
`reassembleAndRenderFrame`, copying chunk `i` at the running offset; `n`
is the number of iterations left. -/
def reassembleFrom (chunks : List (Nat × List Nat)) :
    Nat → List Nat → Nat → Nat → ReasmResult
  | 0, buf, _, _ => .ok buf
  | n + 1, buf, off, i =>
    match jsGet chunks i with
    | none => .missing i
    | some chunkData =>
      match writeAt buf off chunkData with
      | none => .rangeError
      | some buf2 => reassembleFrom chunks n buf2 (off + chunkData.length) (i + 1)

/-- `reassembleAndRenderFrame(frameId)`.  On a missing chunk: count the
loss and clean up.  On a `RangeError` from the typed-array copy the
exception propagates: no render, no cleanup.  On success the buffer is
handed to the renderer and the `img.onload` continuation (statistics and
cleanup) runs. -/
def reassembleAndRenderFrame (reassemblyStart loadNow : Nat) (frameId : Nat)
    (s : RtcState) : RtcState :=
  match jsGet s.chunkCache frameId with
  | none => s
  | some frameData =>
    match reassembleFrom frameData.chunks frameData.metadata.total_chunks
        (List.replicate frameData.metadata.total_size 0) 0 0 with
    | .missing _ =>
      cleanupFrame frameId
        { s with stats := { s.stats with chunksLost := s.stats.chunksLost + 1 } }
    | .rangeError => s
    | .ok buf =>
      cleanupFrame frameId
        { s with
          rendered := s.rendered ++ [(frameId, buf)]
          frameCount := s.frameCount + 1
          lastFrameTime := frameData.metadata.frameTime
          latencyDisplay :=
            (frameData.metadata.frameTime : Int) - (frameData.metadata.timestamp : Int) * 1000
          stats := { s.stats with
            totalFrames := s.stats.totalFrames + 1
            chunkedFrames := s.stats.chunkedFrames + 1
            frameReassemblyTime := loadNow - reassemblyStart } }

/-- `handleChunk(chunkMeta, binaryData)`: drop chunks of unknown frames;
otherwise store the bytes at the chunk index, increment `receivedChunks`,
count the chunk, possibly emit a sampled acknowledgement, and reassemble
when `receivedChunks >= total_chunks`.  `ackRand` is the outcome of
`Math.random() < 0.1`. -/
def handleChunk (ackRand : Bool) (reassemblyStart loadNow : Nat)
    (cm : ChunkMeta) (binaryData : List Nat) (s : RtcState) :
    RtcState × List RtcEmit :=
  match jsGet s.chunkCache cm.frame_id with
  | none => (s, [])
  | some frameData =>
    let frameData2 : FrameAssembly :=
      { frameData with
        chunks := jsSet frameData.chunks cm.chunk_index binaryData
        receivedChunks := frameData.receivedChunks + 1 }
    let s1 : RtcState :=
      { s with
        chunkCache := jsSet s.chunkCache cm.frame_id frameData2
        stats := { s.stats with chunksReceived := s.stats.chunksReceived + 1 } }
    let emits := if ackRand then [RtcEmit.chunkReceived cm.frame_id cm.chunk_index] else []
    if frameData2.metadata.total_chunks ≤ frameData2.receivedChunks then
      (reassembleAndRenderFrame reassemblyStart loadNow cm.frame_id s1, emits)
    else
      (s1, emits)

/-- `attemptReconnect()`: below the retry cap, increment the counter and
schedule a `connect()` after `reconnectDelay * reconnectAttempts` ms;
at the cap, only surface a terminal status. -/
def attemptReconnect (s : RtcState) : RtcState :=
  if s.reconnectAttempts < maxReconnectAttempts then
    { s with
      reconnectAttempts := s.reconnectAttempts + 1
      pendingReconnects := s.pendingReconnects ++ [reconnectDelay * (s.reconnectAttempts + 1)] }
  else
    s

/-- The registered `connect` handler: mark connected, reset the retry
counter. -/
def onConnectEvent (s : RtcState) : RtcState :=
  { s with isConnected := true, reconnectAttempts := 0 }

/-- The registered `disconnect` handler: mark disconnected, stop streaming
and invoke the reconnection policy — unconditionally, with no check of the
disconnect reason. -/
def onDisconnectEvent (s : RtcState) : RtcState :=
  attemptReconnect { s with isConnected := false, isStreaming := false }

/-- `connect()`: no-op when already connected, else create the socket and
register the handlers. -/
def connect (s : RtcState) : RtcState :=
  if s.isConnected then s else { s with socketExists := true }

/-- A scheduled reconnect timer fires: its body is `this.connect()`. -/
def fireReconnect (s : RtcState) : RtcState :=
  match s.pendingReconnects with
  | [] => s
  | _ :: rest => connect { s with pendingReconnects := rest }

/-- `disconnect()`: `socket.disconnect()` (which, per socket.io-client,
fires the registered `disconnect` handler exactly when the socket is
connected), drop the socket, clear the flags. -/
def disconnect (s : RtcState) : RtcState :=
  let s1 := if s.socketExists then (if s.isConnected then onDisconnectEvent s else s) else s
  { s1 with socketExists := false, isConnected := false, isStreaming := false }

/-- `startStream(settings)` of the WebRTC client. -/
def startStream (patch : RtcPatch) (s : RtcState) : Bool × List RtcEmit × RtcState :=
  if !s.isConnected then
    (false, [], s)
  else
    (true, [RtcEmit.startWebrtcStream (applyPatch patch s.currentSettings)], s)

/-- `stopStream()` of the WebRTC client: emit, then clear all cached
frames and cancel all pending per-frame timers. -/
def stopStream (s : RtcState) : Bool × List RtcEmit × RtcState :=
  if !s.isConnected then
    (false, [], s)
  else
    (true, [RtcEmit.stopWebrtcStream],
      { s with chunkCache := [], chunkTimeouts := [] })

end WebRTC

namespace Ws

/-- `this.currentSettings` of the WebSocket client; the `encoding` field
does not exist until the `encoding_method_updated` handler assigns it. -/
structure WsSettings where
  camera_index : Nat
  resolution : Nat × Nat
  fps : Nat
  quality : Nat
  encoding : Option String
  deriving Repr, DecidableEq

/-- A partial settings object passed to `startStream(settings)`. -/
structure WsPatch where
  camera_index : Option Nat := none
  resolution : Option (Nat × Nat) := none
  fps : Option Nat := none
  quality : Option Nat := none
  encoding : Option String := none
  deriving Repr, DecidableEq

/-- JS object spread `{ ...base, ...patch }` over the settings fields. -/
def applyWsPatch (p : WsPatch) (base : WsSettings) : WsSettings where
  camera_index := p.camera_index.getD base.camera_index
  resolution := p.resolution.getD base.resolution
  fps := p.fps.getD base.fps
  quality := p.quality.getD base.quality
  encoding := match p.encoding with
    | some m => some m
    | none => base.encoding

/-- Messages the WebSocket client emits to the peer. -/
inductive WsEmit where
  | startStreamMsg (settings : WsSettings)
  | stopStreamMsg
  | updateResolutionMsg (w h : Nat)
  | updateQualityMsg (q : Nat)
  | updateFPSMsg (fps : Nat)
  | setEncodingMethodMsg (method : String)
  | setMaxBitrateMsg (kbps : Nat)
  | getStatsMsg
  deriving Repr, DecidableEq

/-- The mutable fields of the second `WebSocketVideoClient` class relevant
to the claims.  `frameDataHistory` holds `{timestamp, size}` samples; both
components and the computed bitrate are rationals, modelling JS number
arithmetic on these (exactly representable) values. -/
structure WsState where
  socketExists : Bool
  isConnected : Bool
  isStreaming : Bool
  reconnectAttempts : Nat
  currentSettings : WsSettings
  frameDataHistory : List (ℚ × ℚ)
  currentBitrateMbps : ℚ
  statsPollingActive : Bool
  deriving Repr, DecidableEq

/-- `this.bitrateWindow = 5000`. -/
def bitrateWindow : ℚ := 5000

/-- Constructor defaults of the WebSocket client. -/
def wsInitialState : WsState where
  socketExists := false
  isConnected := false
  isStreaming := false
  reconnectAttempts := 0
  currentSettings :=
    { camera_index := 1, resolution := (640, 480), fps := 30, quality := 85, encoding := none }
  frameDataHistory := []
  currentBitrateMbps := 0
  statsPollingActive := false

/-- The result of an outbound command method: the returned boolean, the
messages emitted to the peer, and the post-state. -/
def MethodResult : Type := Bool × List WsEmit × WsState

/-- `startStream(settings)`. -/
def ws_startStream (patch : WsPatch) (s : WsState) : MethodResult :=
  if !s.isConnected then
    (false, [], s)
  else
    (true, [WsEmit.startStreamMsg (applyWsPatch patch s.currentSettings)], s)

/-- `stopStream()`. -/
def ws_stopStream (s : WsState) : MethodResult :=
  if !s.isConnected then (false, [], s)
  else (true, [WsEmit.stopStreamMsg], s)

/-- `updateResolution(width, height)`. -/
def ws_updateResolution (w h : Nat) (s : WsState) : MethodResult :=
  if !s.isConnected then (false, [], s)
  else (true, [WsEmit.updateResolutionMsg w h], s)

/-- `updateQuality(quality)`. -/
def ws_updateQuality (q : Nat) (s : WsState) : MethodResult :=
  if !s.isConnected then (false, [], s)
  else (true, [WsEmit.updateQualityMsg q], s)

/-- `updateFPS(fps)`. -/
def ws_updateFPS (fps : Nat) (s : WsState) : MethodResult :=
  if !s.isConnected then (false, [], s)
  else (true, [WsEmit.updateFPSMsg fps], s)

/-- `setEncodingMethod(method)`: send the request; local state untouched. -/
def ws_setEncodingMethod (method : String) (s : WsState) : MethodResult :=
  if !s.isConnected then (false, [], s)
  else (true, [WsEmit.setEncodingMethodMsg method], s)

/-- `setMaxBitrate(maxBitrateKbps)`. -/
def ws_setMaxBitrate (kbps : Nat) (s : WsState) : MethodResult :=
  if !s.isConnected then (false, [], s)
  else (true, [WsEmit.setMaxBitrateMsg kbps], s)

/-- `getStats()`. -/
def ws_getStats (s : WsState) : MethodResult :=
  if !s.isConnected then (false, [], s)
  else (true, [WsEmit.getStatsMsg], s)

/-- The `encoding_method_updated` handler: mirror the acknowledged
encoding mode into `currentSettings.encoding`. -/
def onEncodingMethodUpdated (method : String) (s : WsState) : WsState :=
  { s with currentSettings := { s.currentSettings with encoding := some method } }

/-- The `quality_updated` handler. -/
def onQualityUpdated (q : Nat) (s : WsState) : WsState :=
  { s with currentSettings := { s.currentSettings with quality := q } }

/-- The `fps_updated` handler. -/
def onFpsUpdated (fps : Nat) (s : WsState) : WsState :=
  { s with currentSettings := { s.currentSettings with fps := fps } }

/-- The `resolution_updated` handler. -/
def onResolutionUpdated (w h : Nat) (s : WsState) : WsState :=
  { s with currentSettings := { s.currentSettings with resolution := (w, h) } }

/-- `updateBitrate(frameSize)`: append the sample, drop entries older than
the 5000 ms window, and when more than one sample remains divide the
summed bytes by the span from the oldest remaining sample to now. -/
def updateBitrate (now frameSize : ℚ) (s : WsState) : WsState :=
  let hist1 := s.frameDataHistory ++ [(now, frameSize)]
  let cutoff := now - bitrateWindow
  let hist2 := hist1.filter (fun f => decide (cutoff < f.1))
  match hist2 with
  | [] => { s with frameDataHistory := hist2 }
  | f0 :: rest =>
    if 1 < (f0 :: rest).length then
      let totalBytes := ((f0 :: rest).map Prod.snd).sum
      let timeSpan := (now - f0.1) / 1000
      if 0 < timeSpan then
        { s with
          frameDataHistory := f0 :: rest
          currentBitrateMbps := totalBytes * 8 / timeSpan / 1000000 }
      else
        { s with frameDataHistory := f0 :: rest }
    else
      { s with frameDataHistory := f0 :: rest }

end Ws

namespace WebRTC

/-- Deliver a list of chunks for frame `fid` through `handleChunk`, in the
given index order, with payload `payload i` for index `i`.  The sampled
acknowledgement outcome and the `Date.now()` readings do not influence the
assembly or the rendered buffers, so they are fixed. -/
def deliverChunks (fid : Nat) (payload : Nat → List Nat) (order : List Nat)
    (s : RtcState) : RtcState :=
  order.foldl
    (fun st j => (handleChunk false 0 0 { frame_id := fid, chunk_index := j }
      (payload j) st).1) s

/-- The chunk map holds exactly the payloads of the indices in `done`. -/
def ChunksHas (payload : Nat → List Nat) (C : List (Nat × List Nat))
    (done : List Nat) : Prop :=
  ∀ j, jsGet C j = if j ∈ done then some (payload j) else none

/-- Invariant of a partially assembled frame `fid`: the cache holds an
assembly with metadata `M`, start time `T`, exactly the chunks of `done`,
and `receivedChunks = done.length`; nothing has been rendered beyond the
base state. -/
def DeliverInv (fid : Nat) (M : FrameMeta) (T : Nat)
    (payload : Nat → List Nat) (base : RtcState) (done : List Nat)
    (s : RtcState) : Prop :=
  (∃ C, jsGet s.chunkCache fid =
      some { metadata := M, chunks := C, receivedChunks := done.length, startTime := T } ∧
    ChunksHas payload C done) ∧
  s.rendered = base.rendered

/-- Concatenation of the payloads of indices `i, i+1, …, i+n-1`. -/
def payloadJoin (payload : Nat → List Nat) : Nat → Nat → List Nat
  | _, 0 => []
  | i, n + 1 => payload i ++ payloadJoin payload (i + 1) n

end WebRTC

/-- A WebRTC client state that is connected (socket created, `connect`
event received, no stream activity yet). -/
def rtcConn : WebRTC.RtcState :=
  { WebRTC.initialState with socketExists := true, isConnected := true }

/-- Concrete chunked-frame metadata: frame 7, 3 chunks, 12 bytes total. -/
def chunkedMeta7 : WebRTC.FrameMeta :=
  { frame_id := 7, total_chunks := 3, total_size := 12, timestamp := 0,
    quality := 85, frameTime := 0 }

/-- The connected client after the `webrtc_frame_chunked` handler ran for
`chunkedMeta7` at time 1000. -/
def c1_s0 : WebRTC.RtcState := WebRTC.onFrameChunked 1000 chunkedMeta7 rtcConn

/-- `c1_s0` after chunk 0 of frame 7 arrived with payload `[1, 2, 3, 4]`. -/
def c1_s1 : WebRTC.RtcState :=
  (WebRTC.handleChunk false 1000 1000 ⟨7, 0⟩ [1, 2, 3, 4] c1_s0).1

/-- `c1_s1` after a duplicate delivery of chunk 0 with payload
`[9, 9, 9, 9]`. -/
def c1_s2 : WebRTC.RtcState :=
  (WebRTC.handleChunk false 1000 1000 ⟨7, 0⟩ [9, 9, 9, 9] c1_s1).1

/-- A concrete 2-chunk payload family: chunk 0 is `[1, 2]`, chunk 1 is
`[3, 4]`. -/
def c2_payload : Nat → List Nat := fun i => if i = 0 then [1, 2] else [3, 4]

/-- Concrete chunked-frame metadata for the order-independence witness:
frame 7, 2 chunks, 4 bytes. -/
def c2_meta : WebRTC.FrameMeta :=
  { frame_id := 7, total_chunks := 2, total_size := 4, timestamp := 0,
    quality := 85, frameTime := 0 }

/-- Concrete metadata for the size-check counterexample: frame 9, a single
chunk, declared total size 5. -/
def c4_meta : WebRTC.FrameMeta :=
  { frame_id := 9, total_chunks := 1, total_size := 5, timestamp := 0,
    quality := 85, frameTime := 0 }

/-- The connected client after `webrtc_frame_chunked` for `c4_meta`. -/
def c4_s0 : WebRTC.RtcState := WebRTC.onFrameChunked 1000 c4_meta rtcConn

/-- `c4_s0` after the single chunk arrived carrying only 3 bytes. -/
def c4_s1 : WebRTC.RtcState :=
  (WebRTC.handleChunk false 1000 1001 ⟨9, 0⟩ [1, 2, 3] c4_s0).1

/-- A WebSocket client state that is connected. -/
def wsConn : Ws.WsState := { Ws.wsInitialState with isConnected := true }

/-- The client after one 10,000-byte frame recorded at t = 100000 ms. -/
def c8_s1 : Ws.WsState := Ws.updateBitrate 100000 10000 Ws.wsInitialState

/-- `c8_s1` after a second 10,000-byte frame recorded one second later. -/
def c8_s2 : Ws.WsState := Ws.updateBitrate 101000 10000 c8_s1

namespace WebRTC

theorem jsGet_nil {α : Type} (k : Nat) : jsGet ([] : List (Nat × α)) k = none := rfl

theorem jsGet_cons {α : Type} (p : Nat × α) (rest : List (Nat × α)) (k : Nat) :
    jsGet (p :: rest) k = if p.1 = k then some p.2 else jsGet rest k := by
  by_cases h : p.1 = k
  · simp [jsGet, List.find?_cons_of_pos _ (by simp [h] : (p.1 == k) = true), h]
  · simp [jsGet, List.find?_cons_of_neg _ (by simp [h] : ¬ (p.1 == k) = true), h]

theorem jsGet_jsSet_self {α : Type} (m : List (Nat × α)) (k : Nat) (v : α) :
    jsGet (jsSet m k v) k = some v := by
  induction m with
  | nil => simp [jsSet, jsGet_cons]
  | cons p rest ih =>
    by_cases h : p.1 = k
    · simp [jsSet, h, jsGet_cons]
    · simp only [jsSet, beq_iff_eq, h, if_false]
      rw [jsGet_cons, if_neg h]
      exact ih

theorem jsGet_jsSet_ne {α : Type} (m : List (Nat × α)) (k k2 : Nat) (v : α)
    (h : k ≠ k2) : jsGet (jsSet m k v) k2 = jsGet m k2 := by
  induction m with
  | nil => simp [jsSet, jsGet_cons, jsGet_nil, h]
  | cons p rest ih =>
    by_cases hp : p.1 = k
    · simp only [jsSet, beq_iff_eq, hp, if_true]
      rw [jsGet_cons, jsGet_cons, if_neg h, hp, if_neg h]
    · simp only [jsSet, beq_iff_eq, hp, if_false]
      rw [jsGet_cons, jsGet_cons]
      rcases eq_or_ne p.1 k2 with hp2 | hp2
      · rw [if_pos hp2, if_pos hp2]
      · rw [if_neg hp2, if_neg hp2]
        exact ih

theorem jsGet_jsDelete_self {α : Type} (m : List (Nat × α)) (k : Nat) :
    jsGet (jsDelete m k) k = none := by
  induction m with
  | nil => rfl
  | cons p rest ih =>
    by_cases h : p.1 = k
    · simpa [jsDelete, List.filter_cons, h] using ih
    · have hcond : (!(p.1 == k)) = true := by simp [h]
      simp only [jsDelete, List.filter_cons] at ih ⊢
      rw [if_pos hcond, jsGet_cons, if_neg h]
      exact ih

theorem jsGet_jsDelete_ne {α : Type} (m : List (Nat × α)) (k k2 : Nat)
    (h : k ≠ k2) : jsGet (jsDelete m k) k2 = jsGet m k2 := by
  induction m with
  | nil => rfl
  | cons p rest ih =>
    by_cases hp : p.1 = k
    · rw [jsGet_cons, if_neg (by rw [hp]; exact h)]
      simpa [jsDelete, List.filter_cons, hp] using ih
    · have hcond : (!(p.1 == k)) = true := by simp [hp]
      simp only [jsDelete, List.filter_cons] at ih ⊢
      rw [if_pos hcond, jsGet_cons, jsGet_cons]
      rcases eq_or_ne p.1 k2 with hp2 | hp2
      · rw [if_pos hp2, if_pos hp2]
      · rw [if_neg hp2, if_neg hp2]
        exact ih

theorem cleanupFrame_stats (fid : Nat) (s : RtcState) :
    (cleanupFrame fid s).stats = s.stats := rfl

theorem cleanupFrame_rendered (fid : Nat) (s : RtcState) :
    (cleanupFrame fid s).rendered = s.rendered := rfl

theorem foldl_cleanupFrame_stats (l : List Nat) (s : RtcState) :
    (l.foldl (fun st fid => cleanupFrame fid st) s).stats = s.stats := by
  induction l generalizing s with
  | nil => rfl
  | cons x xs ih => simpa [List.foldl] using ih (cleanupFrame x s)

theorem foldl_cleanupFrame_rendered (l : List Nat) (s : RtcState) :
    (l.foldl (fun st fid => cleanupFrame fid st) s).rendered = s.rendered := by
  induction l generalizing s with
  | nil => rfl
  | cons x xs ih => simpa [List.foldl] using ih (cleanupFrame x s)

theorem payloadJoin_eq (payload : Nat → List Nat) :
    ∀ (n i : Nat),
      payloadJoin payload i n = ((List.range n).map (fun j => payload (i + j))).flatten
  | 0, _ => by simp [payloadJoin]
  | n + 1, i => by
    rw [List.range_succ_eq_map, List.map_cons, List.map_map, List.flatten_cons]
    have hcmp : ((fun j => payload (i + j)) ∘ Nat.succ) =
        (fun j => payload ((i + 1) + j)) := by
      funext j
      show payload (i + (j + 1)) = payload ((i + 1) + j)
      congr 1
      omega
    rw [hcmp]
    show payload i ++ payloadJoin payload (i + 1) n = _
    rw [payloadJoin_eq payload n (i + 1)]
    simp

theorem writeAt_length (buf : List Nat) (off : Nat) (data b2 : List Nat)
    (h : writeAt buf off data = some b2) : b2.length = buf.length := by
  unfold writeAt at h
  split at h
  · injection h with h
    subst h
    simp only [List.length_append, List.length_take, List.length_drop]
    omega
  · exact absurd h (by simp)

theorem reassembleFrom_ok_length (C : List (Nat × List Nat)) :
    ∀ (n : Nat) (buf : List Nat) (off i : Nat) (b : List Nat),
      reassembleFrom C n buf off i = ReasmResult.ok b → b.length = buf.length
  | 0, buf, off, i, b, h => by
    unfold reassembleFrom at h
    injection h with h
    rw [h]
  | n + 1, buf, off, i, b, h => by
    unfold reassembleFrom at h
    cases hg : jsGet C i with
    | none => simp only [hg] at h; cases h
    | some d =>
      simp only [hg] at h
      cases hw : writeAt buf off d with
      | none => simp only [hw] at h; cases h
      | some buf2 =>
        simp only [hw] at h
        rw [reassembleFrom_ok_length C n buf2 (off + d.length) (i + 1) b h]
        exact writeAt_length buf off d buf2 hw

theorem reassembleFrom_ok (C : List (Nat × List Nat)) (payload : Nat → List Nat) :
    ∀ (n i : Nat) (pre : List Nat) (p : Nat),
      (∀ j, j < n → jsGet C (i + j) = some (payload (i + j))) →
      reassembleFrom C n
          (pre ++ List.replicate ((payloadJoin payload i n).length + p) 0)
          pre.length i
        = ReasmResult.ok (pre ++ (payloadJoin payload i n ++ List.replicate p 0))
  | 0, i, pre, p, _ => by
    simp [reassembleFrom, payloadJoin]
  | n + 1, i, pre, p, h => by
    have h0 : jsGet C i = some (payload i) := by
      simpa using h 0 (Nat.succ_pos n)
    have hJ : payloadJoin payload i (n + 1) =
        payload i ++ payloadJoin payload (i + 1) n := rfl
    have hfit : pre.length + (payload i).length ≤
        (pre ++ List.replicate ((payloadJoin payload i (n + 1)).length + p) 0).length := by
      simp [hJ]
      omega
    have htake :
        (pre ++ List.replicate ((payloadJoin payload i (n + 1)).length + p) 0).take pre.length
          = pre := List.take_left pre _
    have hdrop :
        (pre ++ List.replicate ((payloadJoin payload i (n + 1)).length + p) 0).drop
            (pre.length + (payload i).length)
          = List.replicate ((payloadJoin payload (i + 1) n).length + p) 0 := by
      rw [List.drop_append, List.drop_replicate]
      congr 1
      simp [hJ]
      omega
    have hwa : writeAt (pre ++ List.replicate ((payloadJoin payload i (n + 1)).length + p) 0)
        pre.length (payload i)
        = some ((pre ++ payload i) ++
            List.replicate ((payloadJoin payload (i + 1) n).length + p) 0) := by
      unfold writeAt
      rw [if_pos hfit, htake, hdrop]
    have hshift : ∀ j, j < n → jsGet C ((i + 1) + j) = some (payload ((i + 1) + j)) := by
      intro j hj
      have hjs := h (j + 1) (by omega)
      have harith : i + (j + 1) = (i + 1) + j := by omega
      rwa [harith] at hjs
    have ih := reassembleFrom_ok C payload n (i + 1) (pre ++ payload i) p hshift
    unfold reassembleFrom
    simp only [h0, hwa]
    rw [show pre.length + (payload i).length = (pre ++ payload i).length by
      rw [List.length_append]]
    rw [ih, hJ]
    simp [List.append_assoc]

theorem handleChunk_step (fid : Nat) (M : FrameMeta) (T : Nat)
    (payload : Nat → List Nat) (base : RtcState) (done : List Nat) (j : Nat)
    (s : RtcState)
    (hinv : DeliverInv fid M T payload base done s)
    (hj : j ∉ done)
    (hlt : done.length + 1 < M.total_chunks) :
    DeliverInv fid M T payload base (done ++ [j])
      ((handleChunk false 0 0 ⟨fid, j⟩ (payload j) s).1) := by
  obtain ⟨⟨C, hget, hchunks⟩, hrend⟩ := hinv
  unfold handleChunk
  rw [hget]
  simp only [Nat.not_le.mpr hlt, if_false]
  refine ⟨⟨jsSet C j (payload j), ?_, ?_⟩, hrend⟩
  · rw [jsGet_jsSet_self]
    simp
  · intro j2
    rcases eq_or_ne j2 j with hej | hej
    · subst hej
      rw [jsGet_jsSet_self]
      simp
    · rw [jsGet_jsSet_ne _ _ _ _ (Ne.symm hej), hchunks j2]
      have : j2 ∈ done ++ [j] ↔ j2 ∈ done := by simp [hej]
      by_cases hmem : j2 ∈ done
      · rw [if_pos hmem, if_pos (this.mpr hmem)]
      · rw [if_neg hmem, if_neg (fun hc => hmem (this.mp hc))]

theorem deliver_fold (fid : Nat) (M : FrameMeta) (T : Nat)
    (payload : Nat → List Nat) (base : RtcState) :
    ∀ (todo done : List Nat) (s : RtcState),
      DeliverInv fid M T payload base done s →
      (∀ j ∈ todo, j ∉ done) →
      todo.Nodup →
      done.length + todo.length < M.total_chunks →
      DeliverInv fid M T payload base (done ++ todo)
        (deliverChunks fid payload todo s)
  | [], done, s, hinv, _, _, _ => by simpa [deliverChunks] using hinv
  | j :: todo, done, s, hinv, hdis, hnd, hlen => by
    have hstep := handleChunk_step fid M T payload base done j s hinv
      (hdis j (by simp)) (by simp at hlen; omega)
    have hdis2 : ∀ j2 ∈ todo, j2 ∉ done ++ [j] := by
      intro j2 hj2
      simp only [List.mem_append, List.mem_singleton]
      rintro (hc | hc)
      · exact hdis j2 (by simp [hj2]) hc
      · subst hc
        exact (List.nodup_cons.mp hnd).1 hj2
    have ih := deliver_fold fid M T payload base todo (done ++ [j]) _ hstep hdis2
      (List.nodup_cons.mp hnd).2 (by simp at hlen ⊢; omega)
    simpa [deliverChunks, List.foldl, List.append_assoc] using ih

theorem handleChunk_final (fid : Nat) (M : FrameMeta) (T : Nat)
    (payload : Nat → List Nat) (base : RtcState) (done : List Nat) (j : Nat)
    (s : RtcState) (p : Nat)
    (hinv : DeliverInv fid M T payload base done s)
    (hj : j ∉ done)
    (hcomplete : done.length + 1 = M.total_chunks)
    (hcover : ∀ i, i < M.total_chunks → i ∈ done ++ [j])
    (hsize : M.total_size = (payloadJoin payload 0 M.total_chunks).length + p) :
    ((handleChunk false 0 0 ⟨fid, j⟩ (payload j) s).1).rendered
      = base.rendered ++
          [(fid, payloadJoin payload 0 M.total_chunks ++ List.replicate p 0)] := by
  obtain ⟨⟨C, hget, hchunks⟩, hrend⟩ := hinv
  have hguard : M.total_chunks ≤ done.length + 1 := le_of_eq hcomplete.symm
  unfold handleChunk
  simp only [hget]
  rw [if_pos hguard]
  unfold reassembleAndRenderFrame
  simp only [jsGet_jsSet_self]
  have hall : ∀ jj, jj < M.total_chunks →
      jsGet (jsSet C j (payload j)) (0 + jj) = some (payload (0 + jj)) := by
    intro jj hjj
    rw [Nat.zero_add]
    rcases eq_or_ne jj j with hej | hej
    · subst hej
      exact jsGet_jsSet_self C jj (payload jj)
    · rw [jsGet_jsSet_ne _ _ _ _ (Ne.symm hej), hchunks jj]
      have hmem : jj ∈ done := by
        have := hcover jj hjj
        simp only [List.mem_append, List.mem_singleton] at this
        rcases this with hc | hc
        · exact hc
        · exact absurd hc hej
      rw [if_pos hmem]
  have hok := reassembleFrom_ok (jsSet C j (payload j)) payload M.total_chunks 0 [] p hall
  simp only [List.nil_append, List.length_nil] at hok
  rw [hsize]
  rw [hok]
  simp only [cleanupFrame]
  rw [hrend]

theorem deliver_all_rendered (N p : Nat) (payload : Nat → List Nat)
    (order : List Nat) (fid now : Nat) (meta : FrameMeta) (base : RtcState)
    (hid : meta.frame_id = fid) (hN : meta.total_chunks = N)
    (hsize : meta.total_size = (((List.range N).map payload).flatten).length + p)
    (hperm : order.Perm (List.range N)) (hpos : 0 < N) :
    (deliverChunks fid payload order (onFrameChunked now meta base)).rendered
      = base.rendered ++
          [(fid, ((List.range N).map payload).flatten ++ List.replicate p 0)] := by
  subst hid
  have hjoin : payloadJoin payload 0 N = ((List.range N).map payload).flatten := by
    rw [payloadJoin_eq]
    simp
  have hlen : order.length = N := by
    rw [hperm.length_eq, List.length_range]
  have hne : order ≠ [] := by
    intro hc
    rw [hc] at hlen
    simp at hlen
    omega
  have hnd : order.Nodup := hperm.nodup_iff.mpr (List.nodup_range N)
  rcases List.eq_nil_or_concat order with hc | ⟨ys, z, hys⟩
  · exact absurd hc hne
  rw [List.concat_eq_append] at hys
  subst hys
  set M : FrameMeta := { meta with frameTime := now } with hM
  have hMN : M.total_chunks = N := hN
  have hMsize : M.total_size = (payloadJoin payload 0 M.total_chunks).length + p := by
    rw [hMN, hjoin]
    exact hsize
  have hinv0 : DeliverInv meta.frame_id M now payload base []
      (onFrameChunked now meta base) := by
    refine ⟨⟨[], ?_, ?_⟩, rfl⟩
    · unfold onFrameChunked
      rw [jsGet_jsSet_self, hM]
      rfl
    · intro j2
      simp [jsGet_nil, ChunksHas]
  have hylen : ys.length + 1 = N := by
    simpa using hlen
  obtain ⟨hndys, _, hdisj⟩ := List.nodup_append.mp hnd
  have hz : z ∉ ys := by
    intro hc
    exact hdisj hc (by simp)
  have hfold := deliver_fold meta.frame_id M now payload base ys []
    (onFrameChunked now meta base) hinv0 (by simp) hndys
    (by rw [hMN]; simp; omega)
  have hcomplete : ([] ++ ys).length + 1 = M.total_chunks := by
    rw [hMN]
    simpa using hylen
  have hcover : ∀ i, i < M.total_chunks → i ∈ ([] ++ ys) ++ [z] := by
    intro i hi
    rw [hMN] at hi
    have : i ∈ List.range N := List.mem_range.mpr hi
    have := (hperm.mem_iff).mpr this
    simpa using this
  have hzdone : z ∉ ([] : List Nat) ++ ys := by simpa using hz
  have hfinal := handleChunk_final meta.frame_id M now payload base ([] ++ ys) z
    (deliverChunks meta.frame_id payload ys (onFrameChunked now meta base)) p
    hfold hzdone hcomplete hcover hMsize
  have hsplit : deliverChunks meta.frame_id payload (ys ++ [z]) (onFrameChunked now meta base)
      = (handleChunk false 0 0 ⟨meta.frame_id, z⟩ (payload z)
          (deliverChunks meta.frame_id payload ys (onFrameChunked now meta base))).1 := by
    unfold deliverChunks
    rw [List.foldl_append]
    rfl
  rw [hsplit, hfinal, hMN, hjoin]


/-- C2: for every frame of N chunks and every permutation of the arrival
order of its distinct chunk indices 0..N-1 (N ≥ 1), once all N chunks have
arrived the buffer handed to the renderer equals the concatenation of the
chunk payloads in index order 0..N-1 — independent of delivery order, with
each chunk placed according to its index (stated for a frame whose
declared total size equals the total payload size, i.e. chunks that
partition the original buffer). -/
theorem reassembly_order_independent (N : Nat) (payload : Nat → List Nat)
    (order : List Nat) (fid now : Nat) (meta : WebRTC.FrameMeta)
    (base : WebRTC.RtcState)
    (hid : meta.frame_id = fid) (hN : meta.total_chunks = N)
    (hsize : meta.total_size = (((List.range N).map payload).flatten).length)
    (hperm : order.Perm (List.range N)) (hpos : 0 < N) :
    (WebRTC.deliverChunks fid payload order
        (WebRTC.onFrameChunked now meta base)).rendered
      = base.rendered ++ [(fid, ((List.range N).map payload).flatten)] := by
  have h := WebRTC.deliver_all_rendered N 0 payload order fid now meta base hid hN
    (by simpa using hsize) hperm hpos
  simpa using h

/-- C2 witness: a 2-chunk frame delivered in reversed order `[1, 0]`
renders the payloads concatenated in index order. -/
theorem reassembly_order_independent_witness :
    (WebRTC.deliverChunks 7 c2_payload [1, 0]
        (WebRTC.onFrameChunked 1000 c2_meta rtcConn)).rendered
      = rtcConn.rendered ++ [(7, ((List.range 2).map c2_payload).flatten)] :=
  reassembly_order_independent 2 c2_payload [1, 0] 7 1000 c2_meta rtcConn
    rfl rfl (by decide) (by decide) (by decide)

/-- C4 counterexample: a 1-chunk frame declaring `total_size = 5` whose
only chunk carries 3 bytes is rendered anyway, from the 5-byte buffer
zero-padded — the code has no check that the received byte total equals
`total_size`, so the claimed rejection does not happen. -/
theorem c4_undersized_frame_rendered :
    c4_s1.rendered = [(9, [1, 2, 3, 0, 0])] ∧
    ([1, 2, 3] : List Nat).length ≠ c4_meta.total_size := by decide

/-- C4 amended: reassembly performs no size-equality check: when all
indices are present and every chunk fits at its running offset, the frame
is handed to the renderer even if the received bytes total less than
`total_size_bytes`, as the `total_size`-sized buffer zero-padded at the
end; the copy never writes outside that buffer — every successfully
reassembled buffer has exactly the length of the allocated
`total_size` buffer (an oversized copy aborts with a `RangeError` and
renders nothing). -/
theorem reassembly_pads_and_never_overflows (N p : Nat)
    (payload : Nat → List Nat) (order : List Nat) (fid now : Nat)
    (meta : WebRTC.FrameMeta) (base : WebRTC.RtcState)
    (hid : meta.frame_id = fid) (hN : meta.total_chunks = N)
    (hsize : meta.total_size = (((List.range N).map payload).flatten).length + p)
    (hperm : order.Perm (List.range N)) (hpos : 0 < N) :
    (WebRTC.deliverChunks fid payload order
        (WebRTC.onFrameChunked now meta base)).rendered
      = base.rendered ++
          [(fid, ((List.range N).map payload).flatten ++ List.replicate p 0)] ∧
    ∀ (C : List (Nat × List Nat)) (n : Nat) (buf : List Nat) (off i : Nat)
      (b : List Nat),
      WebRTC.reassembleFrom C n buf off i = WebRTC.ReasmResult.ok b →
      b.length = buf.length :=
  ⟨WebRTC.deliver_all_rendered N p payload order fid now meta base hid hN hsize
      hperm hpos,
   fun C n buf off i b h => WebRTC.reassembleFrom_ok_length C n buf off i b h⟩

/-- C4 witness: the amended statement at the undersized 1-chunk frame
(3 payload bytes, declared size 5, rendered zero-padded) and at a concrete
successful reassembly whose output length equals the buffer length. -/
theorem reassembly_pads_and_never_overflows_witness :
    (WebRTC.deliverChunks 9 (fun _ => [1, 2, 3]) [0]
        (WebRTC.onFrameChunked 1000 c4_meta rtcConn)).rendered
      = rtcConn.rendered ++
          [(9, ((List.range 1).map (fun _ => [1, 2, 3])).flatten ++
              List.replicate 2 0)] ∧
    ([1, 2, 0] : List Nat).length = ([0, 0, 0] : List Nat).length :=
  ⟨(reassembly_pads_and_never_overflows 1 2 (fun _ => [1, 2, 3]) [0] 9 1000
      c4_meta rtcConn rfl rfl (by decide) (by decide) (by decide)).1,
   (reassembly_pads_and_never_overflows 1 2 (fun _ => [1, 2, 3]) [0] 9 1000
      c4_meta rtcConn rfl rfl (by decide) (by decide) (by decide)).2
     [(0, [1, 2])] 1 [0, 0, 0] 0 0 [1, 2, 0] (by decide)⟩

/-- C1 counterexample: deliver chunk 0 of a 3-chunk frame twice; the code
increments `receivedChunks` on the duplicate as well, so after the second
arrival `receivedChunks = 2` while only one distinct chunk index is
present — the claimed invariant `received_count = number of distinct
indices` fails. -/
theorem c1_duplicate_chunk_double_counts :
    (WebRTC.jsGet c1_s2.chunkCache 7).map WebRTC.FrameAssembly.receivedChunks = some 2 ∧
    (WebRTC.jsGet c1_s2.chunkCache 7).map (fun a => a.chunks.length) = some 1 ∧
    (2 : Nat) ≠ 1 := by decide

/-- C1 amended: delivering a chunk whose index is already present stores
the new bytes at that index (the chunk map deduplicates), but
`receivedChunks` is incremented on every delivery, duplicates included;
it counts deliveries, not distinct indices.  (Stated for a duplicate
arrival that does not reach the completion threshold.) -/
theorem handleChunk_duplicate_still_increments (ackRand : Bool) (rs ln : Nat)
    (cm : WebRTC.ChunkMeta) (bytes old : List Nat) (s : WebRTC.RtcState)
    (asm : WebRTC.FrameAssembly)
    (hget : WebRTC.jsGet s.chunkCache cm.frame_id = some asm)
    (hdup : WebRTC.jsGet asm.chunks cm.chunk_index = some old)
    (hlt : asm.receivedChunks + 1 < asm.metadata.total_chunks) :
    (WebRTC.jsGet ((WebRTC.handleChunk ackRand rs ln cm bytes s).1).chunkCache
        cm.frame_id).map WebRTC.FrameAssembly.receivedChunks
      = some (asm.receivedChunks + 1) ∧
    (WebRTC.jsGet ((WebRTC.handleChunk ackRand rs ln cm bytes s).1).chunkCache
        cm.frame_id).map (fun a => WebRTC.jsGet a.chunks cm.chunk_index)
      = some (some bytes) := by
  unfold WebRTC.handleChunk
  rw [hget]
  simp only [Nat.not_le.mpr hlt, if_false]
  constructor
  · rw [WebRTC.jsGet_jsSet_self]
    rfl
  · rw [WebRTC.jsGet_jsSet_self]
    simp [WebRTC.jsGet_jsSet_self]

/-- C1 witness: the amended statement applied to the concrete duplicate
delivery of chunk 0 of frame 7. -/
theorem handleChunk_duplicate_still_increments_witness :
    (WebRTC.jsGet ((WebRTC.handleChunk false 1000 1000 ⟨7, 0⟩ [9, 9, 9, 9]
        c1_s1).1).chunkCache 7).map WebRTC.FrameAssembly.receivedChunks = some 2 ∧
    (WebRTC.jsGet ((WebRTC.handleChunk false 1000 1000 ⟨7, 0⟩ [9, 9, 9, 9]
        c1_s1).1).chunkCache 7).map (fun a => WebRTC.jsGet a.chunks 0)
      = some (some [9, 9, 9, 9]) :=
  handleChunk_duplicate_still_increments false 1000 1000 ⟨7, 0⟩ [9, 9, 9, 9]
    [1, 2, 3, 4] c1_s1
    { metadata := { chunkedMeta7 with frameTime := 1000 }
      chunks := [(0, [1, 2, 3, 4])], receivedChunks := 1, startTime := 1000 }
    (by decide) (by decide) (by decide)

/-- C3 counterexample: a frame whose metadata arrived and which times out
is deleted and never rendered, but the loss counter `chunksLost` stays 0
instead of being incremented exactly once. -/
theorem c3_timeout_does_not_count_loss :
    WebRTC.jsGet (WebRTC.handleFrameTimeout 7 c1_s0).chunkCache 7 = none ∧
    (WebRTC.handleFrameTimeout 7 c1_s0).rendered = [] ∧
    (WebRTC.handleFrameTimeout 7 c1_s0).stats.chunksLost = 0 ∧
    (0 : Nat) ≠ 1 := by decide

/-- C3 amended: on timeout (and on the periodic sweep) the frame's
assembly entry and pending timer are deleted and nothing is rendered, but
the chunk-loss counter is not incremented — `chunksLost` only grows in the
missing-chunk branch of reassembly. -/
theorem frameTimeout_discards_without_loss_count (fid now : Nat)
    (s : WebRTC.RtcState) :
    WebRTC.jsGet (WebRTC.handleFrameTimeout fid s).chunkCache fid = none ∧
    WebRTC.jsGet (WebRTC.handleFrameTimeout fid s).chunkTimeouts fid = none ∧
    (WebRTC.handleFrameTimeout fid s).rendered = s.rendered ∧
    (WebRTC.handleFrameTimeout fid s).stats = s.stats ∧
    (WebRTC.cleanupOldFrames now s).stats = s.stats ∧
    (WebRTC.cleanupOldFrames now s).rendered = s.rendered := by
  refine ⟨WebRTC.jsGet_jsDelete_self _ _, WebRTC.jsGet_jsDelete_self _ _, rfl, rfl, ?_, ?_⟩
  · unfold WebRTC.cleanupOldFrames
    exact WebRTC.foldl_cleanupFrame_stats _ _
  · unfold WebRTC.cleanupOldFrames
    exact WebRTC.foldl_cleanupFrame_rendered _ _

/-- C5 counterexample: calling `disconnect()` on a connected client with
an unspent retry budget schedules an automatic backoff reconnect (the
`disconnect` handler runs the reconnection policy regardless of the
disconnect reason), contradicting the claim that no automatic attempt is
ever scheduled after an explicit disconnect. -/
theorem c5_explicit_disconnect_schedules_reconnect :
    (WebRTC.disconnect rtcConn).pendingReconnects = [1000] ∧
    (WebRTC.disconnect rtcConn).reconnectAttempts = 1 ∧
    ([1000] : List Nat) ≠ [] := by decide

/-- C5 amended: the `disconnect` handler invokes the reconnection policy
for every transport disconnect, explicit `disconnect()` included; an
explicit disconnect of a connected client with retry budget left schedules
exactly one backoff-delayed reconnect and increments the retry counter.
The delayed attempt itself runs `connect()`, which is a no-op when the
client is already connected, so no second connection is made in that
case. -/
theorem disconnect_runs_reconnect_policy (s : WebRTC.RtcState)
    (h1 : s.socketExists = true) (h2 : s.isConnected = true)
    (h3 : s.reconnectAttempts < WebRTC.maxReconnectAttempts) :
    (WebRTC.disconnect s).pendingReconnects =
      s.pendingReconnects ++ [WebRTC.reconnectDelay * (s.reconnectAttempts + 1)] ∧
    (WebRTC.disconnect s).reconnectAttempts = s.reconnectAttempts + 1 ∧
    ∀ t : WebRTC.RtcState, t.isConnected = true → WebRTC.connect t = t := by
  refine ⟨?_, ?_, fun t ht => by simp [WebRTC.connect, ht]⟩ <;>
    simp [WebRTC.disconnect, WebRTC.onDisconnectEvent, WebRTC.attemptReconnect,
      h1, h2, h3]

/-- C5 witness: the amended statement at the concrete connected client. -/
theorem disconnect_runs_reconnect_policy_witness :
    (WebRTC.disconnect rtcConn).pendingReconnects =
      rtcConn.pendingReconnects ++
        [WebRTC.reconnectDelay * (rtcConn.reconnectAttempts + 1)] ∧
    (WebRTC.disconnect rtcConn).reconnectAttempts = rtcConn.reconnectAttempts + 1 :=
  ⟨(disconnect_runs_reconnect_policy rtcConn rfl rfl (by decide)).1,
   (disconnect_runs_reconnect_policy rtcConn rfl rfl (by decide)).2.1⟩

/-- C6 counterexample: with one in-flight frame assembly (and its pending
timer), `disconnect()` leaves both the chunk cache and the timer map
untouched, contradicting the claim that it clears all in-flight assembly
state and cancels all pending per-frame timers. -/
theorem c6_disconnect_keeps_assembly_state :
    (WebRTC.disconnect c1_s0).chunkCache = c1_s0.chunkCache ∧
    c1_s0.chunkCache ≠ [] ∧
    WebRTC.jsGet (WebRTC.disconnect c1_s0).chunkTimeouts 7 = some 0 ∧
    (WebRTC.disconnect c1_s0).isConnected = false := by decide

/-- C6 amended: `disconnect()` sets the connection state to Disconnected
(flags cleared, socket dropped) but does not clear the per-frame chunk
cache and does not cancel pending per-frame timeout timers; only
`stopStream()` clears those. -/
theorem disconnect_clears_flags_not_assemblies (s : WebRTC.RtcState) :
    (WebRTC.disconnect s).isConnected = false ∧
    (WebRTC.disconnect s).isStreaming = false ∧
    (WebRTC.disconnect s).socketExists = false ∧
    (WebRTC.disconnect s).chunkCache = s.chunkCache ∧
    (WebRTC.disconnect s).chunkTimeouts = s.chunkTimeouts ∧
    ∀ t : WebRTC.RtcState, t.isConnected = true →
      (WebRTC.stopStream t).2.2.chunkCache = [] ∧
      (WebRTC.stopStream t).2.2.chunkTimeouts = [] := by
  refine ⟨?_, ?_, ?_, ?_, ?_, fun t ht => by simp [WebRTC.stopStream, ht]⟩ <;>
    (unfold WebRTC.disconnect WebRTC.onDisconnectEvent WebRTC.attemptReconnect
     by_cases h1 : s.socketExists <;> by_cases h2 : s.isConnected <;>
       by_cases h3 : s.reconnectAttempts < WebRTC.maxReconnectAttempts <;>
       simp [h1, h2, h3])

/-- C6 witness: the amended statement at a concrete state. -/
theorem disconnect_clears_flags_not_assemblies_witness :
    (WebRTC.disconnect c1_s0).isConnected = false ∧
    (WebRTC.disconnect c1_s0).chunkCache = c1_s0.chunkCache :=
  ⟨(disconnect_clears_flags_not_assemblies c1_s0).1,
   (disconnect_clears_flags_not_assemblies c1_s0).2.2.2.1⟩

/-- C7 counterexample: after the retry budget is exhausted
(`reconnectAttempts = 5`), an explicit `connect()` call does not reset the
retry counter to 0 — only a successful `connect` event does. -/
theorem c7_connect_does_not_reset_retries :
    (WebRTC.connect { WebRTC.initialState with reconnectAttempts := 5 }).reconnectAttempts
      = 5 ∧ (5 : Nat) ≠ 0 := by decide

/-- C7 amended: once `maxReconnectAttempts` is reached,
`attemptReconnect()` performs and schedules nothing further; the retry
counter is reset to 0 by a successful connection (the `connect` event
handler), not by the `connect()` call itself, which leaves the counter
unchanged. -/
theorem retries_stop_and_reset_on_success (s : WebRTC.RtcState)
    (h : WebRTC.maxReconnectAttempts ≤ s.reconnectAttempts) :
    WebRTC.attemptReconnect s = s ∧
    (∀ t : WebRTC.RtcState, (WebRTC.onConnectEvent t).reconnectAttempts = 0) ∧
    (∀ t : WebRTC.RtcState, (WebRTC.connect t).reconnectAttempts = t.reconnectAttempts) := by
  refine ⟨?_, fun t => rfl, fun t => ?_⟩
  · unfold WebRTC.attemptReconnect
    rw [if_neg (Nat.not_lt.mpr h)]
  · unfold WebRTC.connect
    by_cases ht : t.isConnected <;> simp [ht]

/-- C7 witness: the amended statement at a client with an exhausted retry
budget. -/
theorem retries_stop_and_reset_on_success_witness :
    WebRTC.attemptReconnect { WebRTC.initialState with reconnectAttempts := 5 }
      = { WebRTC.initialState with reconnectAttempts := 5 } :=
  (retries_stop_and_reset_on_success _ (by decide)).1

/-- C9: `setEncodingMethod(mode)` sends the mode-change request to the
peer when connected but never changes any client state; the mirrored
encoding setting is changed exactly by the `encoding_method_updated`
acknowledgement handler, which sets only the `encoding` field, while the
other settings acknowledgement handlers leave the mirrored encoding
untouched. -/
theorem setEncodingMethod_defers_local_update (m d : String)
    (q fps w h : Nat) (s : Ws.WsState) :
    (Ws.ws_setEncodingMethod m s).2.2 = s ∧
    (s.isConnected = true →
      (Ws.ws_setEncodingMethod m s).2.1 = [Ws.WsEmit.setEncodingMethodMsg m]) ∧
    (Ws.onEncodingMethodUpdated d s).currentSettings =
      { s.currentSettings with encoding := some d } ∧
    (Ws.onQualityUpdated q s).currentSettings.encoding = s.currentSettings.encoding ∧
    (Ws.onFpsUpdated fps s).currentSettings.encoding = s.currentSettings.encoding ∧
    (Ws.onResolutionUpdated w h s).currentSettings.encoding = s.currentSettings.encoding := by
  refine ⟨?_, fun hc => ?_, rfl, rfl, rfl, rfl⟩
  · unfold Ws.ws_setEncodingMethod
    by_cases hc : s.isConnected <;> simp [hc]
  · simp [Ws.ws_setEncodingMethod, hc]

/-- C9 witness: the statement at a concrete connected client. -/
theorem setEncodingMethod_defers_local_update_witness :
    (Ws.ws_setEncodingMethod "binary" wsConn).2.2 = wsConn ∧
    (Ws.ws_setEncodingMethod "binary" wsConn).2.1 =
      [Ws.WsEmit.setEncodingMethodMsg "binary"] :=
  ⟨(setEncodingMethod_defers_local_update "binary" "b64" 0 0 0 0 wsConn).1,
   (setEncodingMethod_defers_local_update "binary" "b64" 0 0 0 0 wsConn).2.1 rfl⟩

/-- C10: every outbound command method of the WebSocket client returns
false, emits nothing to the peer and leaves the client state unchanged
when not connected, and returns true when connected. -/
theorem commands_gate_on_connection (s : Ws.WsState) (patch : Ws.WsPatch)
    (w h q fps kbps : Nat) (m : String) :
    (s.isConnected = false →
      Ws.ws_startStream patch s = (false, [], s) ∧
      Ws.ws_stopStream s = (false, [], s) ∧
      Ws.ws_updateResolution w h s = (false, [], s) ∧
      Ws.ws_updateQuality q s = (false, [], s) ∧
      Ws.ws_updateFPS fps s = (false, [], s) ∧
      Ws.ws_setEncodingMethod m s = (false, [], s) ∧
      Ws.ws_setMaxBitrate kbps s = (false, [], s) ∧
      Ws.ws_getStats s = (false, [], s)) ∧
    (s.isConnected = true →
      (Ws.ws_startStream patch s).1 = true ∧
      (Ws.ws_stopStream s).1 = true ∧
      (Ws.ws_updateResolution w h s).1 = true ∧
      (Ws.ws_updateQuality q s).1 = true ∧
      (Ws.ws_updateFPS fps s).1 = true ∧
      (Ws.ws_setEncodingMethod m s).1 = true ∧
      (Ws.ws_setMaxBitrate kbps s).1 = true ∧
      (Ws.ws_getStats s).1 = true) := by
  constructor <;> intro hc <;>
    simp [Ws.ws_startStream, Ws.ws_stopStream, Ws.ws_updateResolution,
      Ws.ws_updateQuality, Ws.ws_updateFPS, Ws.ws_setEncodingMethod,
      Ws.ws_setMaxBitrate, Ws.ws_getStats, hc]

/-- C10 witness: a disconnected client rejects `getStats` without effect;
a connected client accepts it. -/
theorem commands_gate_on_connection_witness :
    Ws.ws_getStats Ws.wsInitialState = (false, [], Ws.wsInitialState) ∧
    (Ws.ws_getStats wsConn).1 = true :=
  ⟨((commands_gate_on_connection Ws.wsInitialState {} 0 0 0 0 0 "m").1
      rfl).2.2.2.2.2.2.2,
   ((commands_gate_on_connection wsConn {} 0 0 0 0 0 "m").2 rfl).2.2.2.2.2.2.2⟩

theorem updateBitrate_pair (t b : ℚ) :
    (Ws.updateBitrate (t + 1000) b
        (Ws.updateBitrate t b Ws.wsInitialState)).currentBitrateMbps
      = b * 16 / 1000000 := by
  have e1 : Ws.updateBitrate t b Ws.wsInitialState =
      { Ws.wsInitialState with frameDataHistory := [(t, b)] } := by
    unfold Ws.updateBitrate
    have h1 : t - Ws.bitrateWindow < t := by
      unfold Ws.bitrateWindow; linarith
    simp [Ws.wsInitialState, h1]
  rw [e1]
  unfold Ws.updateBitrate
  have h2 : t + 1000 - Ws.bitrateWindow < t := by
    unfold Ws.bitrateWindow; linarith
  have h3 : t + 1000 - Ws.bitrateWindow < t + 1000 := by
    unfold Ws.bitrateWindow; linarith
  have ht : t + 1000 - t = 1000 := by ring
  simp [h2, h3, ht]
  ring

/-- C8 counterexample: for one 10,000-byte frame at t and another at
t + 1 s, the computed trailing-window bitrate is 160,000 bits/second
(0.16 Mbps), not approximately 80,000: the byte sum includes the first
sample while the elapsed span only starts at it.  Even with a generous
1,000 bit/s rounding tolerance the claimed value is off by 80,000. -/
theorem c8_bitrate_is_160000 :
    c8_s2.currentBitrateMbps * 1000000 = 160000 ∧
    ¬ |c8_s2.currentBitrateMbps * 1000000 - 80000| ≤ 1000 := by
  have hval : c8_s2.currentBitrateMbps = 10000 * 16 / 1000000 := by
    have h : (101000 : ℚ) = 100000 + 1000 := by norm_num
    rw [c8_s2, c8_s1, h]
    exact updateBitrate_pair 100000 10000
  rw [hval]
  norm_num [abs_sub_le_iff]

/-- C8 amended: for a fresh history with a frame of `b` bytes at time `t`
and another `b`-byte frame at `t + 1000` ms, `updateBitrate` keeps both
samples in the window and computes `2·b·8` bits over the 1-second span
between them, i.e. `16·b` bits/second — twice the per-second payload the
claim expected (for b = 10,000 bytes: 160,000 bits/second). -/
theorem updateBitrate_two_samples_doubles (t b : ℚ) :
    (Ws.updateBitrate (t + 1000) b
        (Ws.updateBitrate t b Ws.wsInitialState)).currentBitrateMbps
      = b * 16 / 1000000 :=
  updateBitrate_pair t b
